import Mathlib

/-!
Shallow embedding of the client-side sync / auth / transport core of the
`im_xiaoxiang` repository, together with proofs about the properties its
specification claims.

Components embedded (each definition is annotated with the source file and
symbol it is translated from):
* `Sync`  — `OfflineFirstSyncService` (journal recording, batched upload,
  download, conflict resolution) over the key-value `StorageService`.
* `Api`   — `ApiClient` (retry loop, retry condition, backoff).
* `Auth`  — `JWTAuthService` (token validity, access-token accessor,
  single-flight refresh, refresh failure handling).
* `WS`    — `WebSocketService` (reconnect state machine, send path).

Conventions: JavaScript `Date.now()` timestamps are `Nat` milliseconds;
opaque JSON payloads are `String`s; `undefined`/`null` fields are `Option`s.
-/

namespace Sync

/-- The `SyncDataType` enum from the API type definitions
(`messages | chats | users | departments`). -/
inductive SyncDataType
  | messages
  | chats
  | users
  | departments
deriving DecidableEq, Repr

/-- The `SyncAction` enum (`create | update | delete`). -/
inductive SyncAction
  | create
  | update
  | delete
deriving DecidableEq, Repr

/-- The `LocalChange` journal entry: `{type, action, data, clientId, timestamp}`.
The opaque JSON payload `data` and the ISO timestamp are strings. -/
structure LocalChange where
  type : SyncDataType
  action : SyncAction
  data : String
  clientId : String
  timestamp : String
deriving DecidableEq, Repr

/-- The `ConflictType` enum. -/
inductive ConflictType
  | version_conflict
  | deleted_on_server
  | permission_denied
deriving DecidableEq, Repr

/-- The `SyncConflict`: `{clientId, type, serverData, localData}`. -/
structure SyncConflict where
  clientId : String
  ctype : ConflictType
  serverData : String
  localData : String
deriving DecidableEq, Repr

/-- The `UploadChangesResponse`: `{conflicts, processed}` where `processed` is
the list of successfully handled clientIds. -/
structure UploadChangesResponse where
  conflicts : List SyncConflict
  processed : List String
deriving DecidableEq, Repr

/-- The `SyncChange` (a remote change delivered by `/sync/changes`):
`{type, action, data, id, timestamp, version}`. -/
structure SyncChange where
  type : SyncDataType
  action : SyncAction
  data : String
  id : String
  timestamp : String
  version : Nat
deriving DecidableEq, Repr

/-- The `ConflictResolutionStrategy` enum; the service default is `server_wins`. -/
inductive ConflictResolutionStrategy
  | server_wins
  | client_wins
  | manual
  | merge
deriving DecidableEq, Repr

/-- Keys of the `StorageService` key-value store as used by
`OfflineFirstSyncService`.  `localChange c` stands for the string key
`"local_change_" ++ c` (`saveLocalChange`), `lastSyncTime` for
`"last_sync_time"`, and `conflictKey c` for `"conflict_" ++ c`
(`saveConflictForManualResolution`); the three string prefixes are distinct
and fixed, so key equality in the source coincides with constructor-and-field
equality here. -/
inductive StorageKey
  | localChange (clientId : String)
  | lastSyncTime
  | conflictKey (clientId : String)
deriving DecidableEq, Repr

/-- Values held by the store: serialized `LocalChange`s (under journal keys),
numbers (`last_sync_time`) and conflicts saved for manual resolution.
`JSON.stringify`/`JSON.parse` round-tripping is the identity here. -/
inductive StoredValue
  | change (c : LocalChange)
  | num (n : Nat)
  | conflict (c : SyncConflict)
deriving DecidableEq, Repr

/-- The `StorageService` keyed store, as an association list whose keys are
kept duplicate-free (AsyncStorage is a key-value map). -/
abbrev Storage := List (StorageKey × StoredValue)

/-- The `StorageService.setItem`: replace in place when the key exists, append
otherwise. -/
def setItem (s : Storage) (k : StorageKey) (v : StoredValue) : Storage :=
  if s.any (fun p => p.1 = k) then
    s.map (fun p => if p.1 = k then (k, v) else p)
  else
    s ++ [(k, v)]

/-- The `StorageService.removeItem`. -/
def removeItem (s : Storage) (k : StorageKey) : Storage :=
  s.filter (fun p => ¬ p.1 = k)

/-- The `StorageService.getItem`. -/
def getItem (s : Storage) (k : StorageKey) : Option StoredValue :=
  (s.find? (fun p => p.1 = k)).map (fun p => p.2)

/-- One step of `getLocalChanges`'s scan: an entry under a
`"local_change_"`-prefixed key whose value parses as a `LocalChange` yields
that change; any other entry yields nothing (a non-`change` value under a
journal key would fail `JSON.parse` into a `LocalChange` and be skipped
with a warning). -/
def parseJournalEntry : StorageKey × StoredValue → Option LocalChange
  | (StorageKey.localChange _, StoredValue.change c) => some c
  | _ => none

/-- The `getLocalChanges` before sorting: iterate the store's keys, keep the
journal entries. -/
def getLocalChangesRaw (s : Storage) : List LocalChange :=
  s.filterMap parseJournalEntry

/-- The `OfflineFirstSyncService.getLocalChanges`: journal entries sorted by
`timestamp` (`a.timestamp.localeCompare(b.timestamp)`, i.e. lexicographic
string order). -/
def getLocalChanges (s : Storage) : List LocalChange :=
  (getLocalChangesRaw s).mergeSort (fun a b => a.timestamp ≤ b.timestamp)

/-- The `OfflineFirstSyncService.saveLocalChange`: store the serialized change
under `local_change_<clientId>`. -/
def saveLocalChange (s : Storage) (c : LocalChange) : Storage :=
  setItem s (StorageKey.localChange c.clientId) (StoredValue.change c)

/-- The `OfflineFirstSyncService.removeLocalChange`. -/
def removeLocalChange (s : Storage) (clientId : String) : Storage :=
  removeItem s (StorageKey.localChange clientId)

/-- The `OfflineFirstSyncService.removeProcessedChanges`: remove each processed
clientId from the journal. -/
def removeProcessedChanges (s : Storage) (clientIds : List String) : Storage :=
  clientIds.foldl (fun acc cid => removeLocalChange acc cid) s

/-- The `OfflineFirstSyncService.chunkArray`: slices of `size` consecutive
elements.  The service always calls it with `config.batchSize = 50`; a zero
`size` (on which the source's `for` loop would not terminate) is mapped to
`[]`. -/
def chunkArray (l : List LocalChange) (size : Nat) : List (List LocalChange) :=
  if h : l = [] ∨ size = 0 then []
  else l.take size :: chunkArray (l.drop size) size
termination_by l.length
decreasing_by
  rcases Nat.eq_zero_or_pos size with hs | hs
  · exact absurd (Or.inr hs) h
  · have hl : l ≠ [] := fun hl => h (Or.inl hl)
    have : 0 < l.length := List.length_pos.mpr hl
    simpa using Nat.sub_lt this hs

/-- The sync-relevant part of `SyncState`
(`{isOnline, isSyncing, lastSyncTime, pendingChanges, conflictCount, errors}`;
the error ring buffer is elided — no claim mentions it). -/
structure SyncState where
  isOnline : Bool
  isSyncing : Bool
  lastSyncTime : Nat
  pendingChanges : Nat
  conflictCount : Nat
deriving DecidableEq, Repr

/-- The `SyncConfig` with the constructor defaults
(`batchSize 50, syncInterval 30000, retryAttempts 3, retryDelay 5000,
conflictResolution SERVER_WINS`). -/
structure SyncConfig where
  batchSize : Nat
  syncInterval : Nat
  retryAttempts : Nat
  retryDelay : Nat
  conflictResolution : ConflictResolutionStrategy
deriving DecidableEq, Repr

def defaultSyncConfig : SyncConfig :=
  { batchSize := 50
    syncInterval := 30000
    retryAttempts := 3
    retryDelay := 5000
    conflictResolution := ConflictResolutionStrategy.server_wins }

/-- Local entity storage (`DatabaseService`) as the log of upserts performed
by `applyMessageChange` / `applyChatChange` / `applyUserChange`
(`dbService.saveMessage(data)` etc.): a record `(t, d)` means an entity of
type `t` with payload `d` has been upserted. -/
abbrev Db := List (SyncDataType × String)

/-- The `applyServerChange` dispatch: `messages`/`chats`/`users` upsert the
payload on `CREATE`/`UPDATE` via the `DatabaseService`; their `DELETE`
branches only log (`// 实现...删除逻辑`), and `applyDepartmentChange` is a
stub that only logs, so those leave the store unchanged. -/
def applyServerChange (db : Db) (c : SyncChange) : Db :=
  match c.type with
  | SyncDataType.departments => db
  | t =>
    match c.action with
    | SyncAction.create => db ++ [(t, c.data)]
    | SyncAction.update => db ++ [(t, c.data)]
    | SyncAction.delete => db

/-- The `applyServerChanges`: apply a page of remote changes in order (a failing
item is logged and skipped without aborting the loop; the model's apply step
is total, so no item fails). -/
def applyServerChanges (db : Db) (changes : List SyncChange) : Db :=
  changes.foldl applyServerChange db

/-- Whole-service state: sync flags, the key-value store and the entity
store. -/
structure SyncService where
  sync : SyncState
  storage : Storage
  db : Db
deriving DecidableEq, Repr

/-- State of `OfflineFirstSyncService` after its constructor: online, not
syncing, empty journal. -/
def initialSyncService : SyncService :=
  { sync :=
      { isOnline := true
        isSyncing := false
        lastSyncTime := 0
        pendingChanges := 0
        conflictCount := 0 }
    storage := []
    db := [] }

/-- The `updatePendingChangesCount`: `pendingChanges := getLocalChanges().length`. -/
def updatePendingChangesCount (st : SyncService) : SyncService :=
  { st with sync := { st.sync with pendingChanges := (getLocalChanges st.storage).length } }

/-- One `recordLocalChange(type, action, data, id?)` call.  `genId` is the
value `generateClientId()` would produce (a time-and-randomness string),
supplied as an oracle input; `timestamp` is `new Date().toISOString()`. -/
structure RecOp where
  type : SyncDataType
  action : SyncAction
  data : String
  id : Option String
  genId : String
  timestamp : String
deriving DecidableEq, Repr

/-- The `OfflineFirstSyncService.recordLocalChange`: build the `LocalChange`
with `clientId = id || generateClientId()`, save it to the journal, refresh
the pending count, and return the clientId.  (The debounced `startSync`
scheduling is a timer, not a state change.) -/
def recordLocalChange (st : SyncService) (op : RecOp) : SyncService × String :=
  let clientId := op.id.getD op.genId
  let c : LocalChange :=
    { type := op.type
      action := op.action
      data := op.data
      clientId := clientId
      timestamp := op.timestamp }
  let st := { st with storage := saveLocalChange st.storage c }
  (updatePendingChangesCount st, clientId)

/-- A remote authority: per-batch `/sync/upload` responses and the
`/sync/changes` download pages.  Every exchange succeeds (the claims under
study all posit a sync pass that completes successfully). -/
structure Remote where
  upload : List LocalChange → UploadChangesResponse
  pages : List (List SyncChange)

/-- The `resolveConflict` under the configured strategy: `SERVER_WINS` deletes
the journal entry; `CLIENT_WINS` keeps it; `MANUAL` stores the conflict and
bumps `conflictCount`; `MERGE` calls `mergeConflictData`, which is a stub
returning `null`, so it always downgrades to the manual branch. -/
def resolveConflict (cfg : SyncConfig) (st : SyncService) (c : SyncConflict) : SyncService :=
  match cfg.conflictResolution with
  | ConflictResolutionStrategy.server_wins =>
      { st with storage := removeLocalChange st.storage c.clientId }
  | ConflictResolutionStrategy.client_wins => st
  | ConflictResolutionStrategy.manual =>
      { st with
        storage := setItem st.storage (StorageKey.conflictKey c.clientId) (StoredValue.conflict c)
        sync := { st.sync with conflictCount := st.sync.conflictCount + 1 } }
  | ConflictResolutionStrategy.merge =>
      { st with
        storage := setItem st.storage (StorageKey.conflictKey c.clientId) (StoredValue.conflict c)
        sync := { st.sync with conflictCount := st.sync.conflictCount + 1 } }

/-- The `handleUploadConflicts`: resolve each reported conflict in order. -/
def handleUploadConflicts (cfg : SyncConfig) (st : SyncService)
    (conflicts : List SyncConflict) : SyncService :=
  conflicts.foldl (resolveConflict cfg) st

/-- The `uploadBatch` on a successful exchange: POST the batch, resolve the
reported conflicts, then delete the processed clientIds from the journal.
(The `while` retry loop around the POST only re-runs on a thrown error;
the remote model always responds.) -/
def uploadBatch (cfg : SyncConfig) (remote : Remote) (st : SyncService)
    (batch : List LocalChange) : SyncService :=
  let resp := remote.upload batch
  let st := handleUploadConflicts cfg st resp.conflicts
  { st with storage := removeProcessedChanges st.storage resp.processed }

/-- The `uploadLocalChanges`: read the sorted journal, split it into
`batchSize` chunks and upload them sequentially.  Also returns the list of
batches submitted, in order, as the upload trace. -/
def uploadLocalChanges (cfg : SyncConfig) (remote : Remote) (st : SyncService) :
    SyncService × List (List LocalChange) :=
  let changes := getLocalChanges st.storage
  let batches := chunkArray changes cfg.batchSize
  (batches.foldl (uploadBatch cfg remote) st, batches)

/-- The `downloadServerChanges`: fetch pages until `hasMore` is false and apply
each page to local storage.  The storage key-value store is untouched. -/
def downloadServerChanges (remote : Remote) (st : SyncService) : SyncService :=
  { st with db := remote.pages.foldl applyServerChanges st.db }

/-- The `resolveConflicts` (step 3 of `startSync`): `getUnresolvedConflicts` is
a stub returning `[]`, so this step is a no-op. -/
def resolveConflicts (st : SyncService) : SyncService :=
  st

/-- The `OfflineFirstSyncService.startSync(force)`: no-op while already syncing
(unless forced) or offline; otherwise upload, download, resolve conflicts,
persist `last_sync_time := Date.now()` and refresh the pending count (the
transient `isSyncing := true` is reset in the `finally`).  Returns the new
state and the upload trace. -/
def startSync (cfg : SyncConfig) (remote : Remote) (now : Nat) (st : SyncService)
    (force : Bool := false) : SyncService × List (List LocalChange) :=
  if st.sync.isSyncing ∧ ¬ force then (st, [])
  else if ¬ st.sync.isOnline then (st, [])
  else
    let (st, trace) := uploadLocalChanges cfg remote st
    let st := downloadServerChanges remote st
    let st := resolveConflicts st
    let st := { st with
      sync := { st.sync with lastSyncTime := now, isSyncing := false }
      storage := setItem st.storage StorageKey.lastSyncTime (StoredValue.num now) }
    (updatePendingChangesCount st, trace)

end Sync

namespace Api

/-- A JavaScript error value as seen by `ApiClient.request`'s catch block
and `retryCondition`: a `message`, an optional `code` property (present on
the `ApiError` objects thrown by `parseResponse`, absent on plain `Error`s)
and an optional `response.status` property (absent on every error this
client's `performRequest` actually throws — it throws plain
`Error`/`ApiError` objects, not axios-style response errors). -/
structure JsError where
  message : String
  code : Option String
  responseStatus : Option Nat
deriving DecidableEq, Repr

/-- The error `performRequest` throws for a non-ok HTTP status:
`new Error(\x7bHTTP $\x7bresponse.status\x7d: ...\x7d)` — a plain `Error`
carrying only a message, with no `code` and no `response` property. -/
def httpStatusError (status : Nat) : JsError :=
  { message := "HTTP " ++ toString status
    code := none
    responseStatus := none }

/-- The error `performRequest` throws when the `AbortController` fires:
`new Error('Request timeout')`. -/
def timeoutError : JsError :=
  { message := "Request timeout", code := none, responseStatus := none }

/-- The `ApiError` object `parseResponse` throws for a business-level
failure envelope (`data.success === false`): it has a `code` property but
no `response` property. -/
def businessError (code : String) : JsError :=
  { message := "", code := some code, responseStatus := none }

/-- The `DEFAULT_CONFIG.retryCondition`
(source comment: 只对网络错误和5xx错误重试 — "retry only on network errors
and 5xx errors"):
`!error.response || (500 <= status < 600) || code === 'NETWORK_ERROR' ||
code === 'TIMEOUT'`. -/
def defaultRetryCondition (e : JsError) : Bool :=
  e.responseStatus.isNone ||
  (match e.responseStatus with
   | some s => decide (500 ≤ s) && decide (s < 600)
   | none => false) ||
  e.code == some "NETWORK_ERROR" ||
  e.code == some "TIMEOUT"

/-- The `ApiClientConfig` (numeric part; `retryCondition` is fixed to the
default above).  Defaults: `timeout 30000, maxRetries 3, retryDelay 1000`. -/
structure ApiClientConfig where
  timeout : Nat
  maxRetries : Nat
  retryDelay : Nat
deriving DecidableEq, Repr

def defaultApiConfig : ApiClientConfig :=
  { timeout := 30000, maxRetries := 3, retryDelay := 1000 }

/-- The `ApiClient.calculateRetryDelay`:
`Math.min(retryDelay * Math.pow(2, attempt - 1), 30000)`. -/
def calculateRetryDelay (cfg : ApiClientConfig) (attempt : Nat) : Nat :=
  min (cfg.retryDelay * 2 ^ (attempt - 1)) 30000

/-- A transport: the outcome of the `attempt`-th `performRequest` call
(0-based), either a parsed response or a thrown error. -/
abbrev Transport := Nat → Except JsError Unit

/-- Result of `ApiClient.request`: how many `performRequest` calls were
made, the backoff delays slept between them, and the final outcome. -/
structure RequestResult where
  calls : Nat
  delays : List Nat
  outcome : Except JsError Unit
deriving Repr

/-- The `while (attempt <= this.config.maxRetries)` loop of
`ApiClient.request`: try the call; on a thrown error increment `attempt`
and retry (after `calculateRetryDelay(attempt)`) exactly when
`attempt <= maxRetries && retryCondition(error)`, otherwise surface the
last error.  `attempt` doubles as the count of calls already made. -/
def requestLoop (cfg : ApiClientConfig) (tr : Transport) (attempt : Nat)
    (delays : List Nat) : RequestResult :=
  match tr attempt with
  | Except.ok u => { calls := attempt + 1, delays := delays, outcome := Except.ok u }
  | Except.error e =>
    if h : attempt + 1 ≤ cfg.maxRetries ∧ defaultRetryCondition e then
      requestLoop cfg tr (attempt + 1) (delays ++ [calculateRetryDelay cfg (attempt + 1)])
    else
      { calls := attempt + 1, delays := delays, outcome := Except.error e }
termination_by cfg.maxRetries + 1 - attempt
decreasing_by
  have : attempt < cfg.maxRetries := Nat.lt_of_succ_le h.1
  omega

/-- The `ApiClient.request` entry point (attempt counter starts at 0). -/
def request (cfg : ApiClientConfig) (tr : Transport) : RequestResult :=
  requestLoop cfg tr 0 []

end Api

namespace Auth

/-- The `JWTTokenInfo`: `{accessToken, refreshToken, expiresIn (s),
expiresAt (ms timestamp), tokenType}`. -/
structure JWTTokenInfo where
  accessToken : String
  refreshToken : String
  expiresIn : Nat
  expiresAt : Nat
  tokenType : String
deriving DecidableEq, Repr

/-- The `AuthState`: `{isAuthenticated, user, tokenInfo, lastRefreshTime}`
(the opaque user record is its id string). -/
structure AuthState where
  isAuthenticated : Bool
  user : Option String
  tokenInfo : Option JWTTokenInfo
  lastRefreshTime : Nat
deriving DecidableEq, Repr

/-- The constructor's initial `authState`. -/
def initialAuthState : AuthState :=
  { isAuthenticated := false, user := none, tokenInfo := none, lastRefreshTime := 0 }

/-- The 5-minute buffer of `isTokenValid` (`5 * 60 * 1000` ms). -/
def bufferTime : Nat := 5 * 60 * 1000

/-- The `JWTAuthService.isTokenValid`:
`tokenInfo.expiresAt > Date.now() + bufferTime`. -/
def isTokenValid (t : JWTTokenInfo) (now : Nat) : Bool :=
  decide (now + bufferTime < t.expiresAt)

/-- The `JWTAuthService.isCurrentTokenValid`. -/
def isCurrentTokenValid (a : AuthState) (now : Nat) : Bool :=
  match a.tokenInfo with
  | some t => isTokenValid t now
  | none => false

/-- The `JWTAuthService.isAuthenticated`:
`authState.isAuthenticated && isCurrentTokenValid()`. -/
def isAuthenticatedFn (a : AuthState) (now : Nat) : Bool :=
  a.isAuthenticated && isCurrentTokenValid a now

/-- The `JWTAuthService.getAccessToken`: `null` unless `isAuthenticated()`;
otherwise `tokenInfo?.accessToken || null` — JavaScript `||` coerces an
empty-string token to `null`. -/
def getAccessToken (a : AuthState) (now : Nat) : Option String :=
  if isAuthenticatedFn a now then
    match a.tokenInfo with
    | some t => if t.accessToken = "" then none else some t.accessToken
    | none => none
  else
    none

/-- The `LoginResponse`: `{accessToken, refreshToken, expiresIn, user}`. -/
structure LoginResponse where
  accessToken : String
  refreshToken : String
  expiresIn : Nat
  user : String
deriving DecidableEq, Repr

/-- The token triple kept in `SecureStorageService`
(`saveAuthTokens({accessToken, refreshToken, expiresAt})`). -/
structure StoredTokens where
  accessToken : String
  refreshToken : String
  expiresAt : Nat
deriving DecidableEq, Repr

/-- The auth service's mutable state: in-memory `authState`, the secure
store contents, and whether a proactive-refresh timer is scheduled. -/
structure AuthSvc where
  authState : AuthState
  storedTokens : Option StoredTokens
  refreshTimerSet : Bool
deriving DecidableEq, Repr

def initialAuthSvc : AuthSvc :=
  { authState := initialAuthState, storedTokens := none, refreshTimerSet := false }

/-- The `JWTAuthService.clearAuthState`: cancel the timer, reset `authState`,
clear the secure store. -/
def clearAuthState (_s : AuthSvc) : AuthSvc :=
  { authState := initialAuthState, storedTokens := none, refreshTimerSet := false }

/-- The success path of `JWTAuthService.login` from the response `data`:
build the token info (`expiresAt = Date.now() + expiresIn * 1000`), replace
`authState`, persist to secure storage, schedule refresh. -/
def loginSuccess (_s : AuthSvc) (d : LoginResponse) (now : Nat) : AuthSvc :=
  let t : JWTTokenInfo :=
    { accessToken := d.accessToken
      refreshToken := d.refreshToken
      expiresIn := d.expiresIn
      expiresAt := now + d.expiresIn * 1000
      tokenType := "Bearer" }
  { authState :=
      { isAuthenticated := true
        user := some d.user
        tokenInfo := some t
        lastRefreshTime := now }
    storedTokens := some { accessToken := t.accessToken, refreshToken := t.refreshToken,
                           expiresAt := t.expiresAt }
    refreshTimerSet := true }

/-- The error reaching `performTokenRefresh`'s catch block: a normalized
`ApiError` (with a `code`) or a plain `Error` (no `code`). -/
structure RefreshErr where
  code : Option String
  message : String
deriving DecidableEq, Repr

/-- The `JWTAuthService.isAuthError`:
`error.code === UNAUTHORIZED || error.code === TOKEN_EXPIRED`. -/
def isAuthError (e : RefreshErr) : Bool :=
  e.code == some "UNAUTHORIZED" || e.code == some "TOKEN_EXPIRED"

/-- Auth events relevant to refresh (`AuthEvent`). -/
inductive AuthEvt
  | tokenRefreshed
  | tokenRefreshFailed
  | authenticationRequired
deriving DecidableEq, Repr

/-- The `JWTAuthService.performTokenRefresh`, with the network exchange's
outcome as a parameter: no-op without a (truthy) refresh token; on success
replace the token info, persist, reschedule, emit `TOKEN_REFRESHED`; on an
authentication-class failure clear all auth state and emit
`AUTHENTICATION_REQUIRED`; on any other failure leave the state untouched
and emit `TOKEN_REFRESH_FAILED`.  Returns the new service state, the
boolean result and the emitted events. -/
def performTokenRefresh (s : AuthSvc) (outcome : Except RefreshErr LoginResponse)
    (now : Nat) : AuthSvc × Bool × List AuthEvt :=
  match s.authState.tokenInfo with
  | none => (s, false, [])
  | some t =>
    if t.refreshToken = "" then (s, false, [])
    else
      match outcome with
      | Except.ok d =>
        let newT : JWTTokenInfo :=
          { accessToken := d.accessToken
            refreshToken := d.refreshToken
            expiresIn := d.expiresIn
            expiresAt := now + d.expiresIn * 1000
            tokenType := "Bearer" }
        ({ authState :=
             { s.authState with
               tokenInfo := some newT
               user := some d.user
               lastRefreshTime := now }
           storedTokens := some { accessToken := newT.accessToken,
                                  refreshToken := newT.refreshToken,
                                  expiresAt := newT.expiresAt }
           refreshTimerSet := true },
         true, [AuthEvt.tokenRefreshed])
      | Except.error e =>
        if isAuthError e then
          (clearAuthState s, false, [AuthEvt.authenticationRequired])
        else
          (s, false, [AuthEvt.tokenRefreshFailed])

/-- The single-flight bookkeeping of `JWTAuthService.refreshToken`:
`refreshPromise` holds the promise of the in-flight refresh (identified by
a number), `networkCalls` counts `/auth/refresh` requests issued by
`performTokenRefresh`, and `nextPromiseId` feeds fresh promise
identities. -/
structure RefreshFlight where
  refreshPromise : Option Nat
  networkCalls : Nat
  nextPromiseId : Nat
deriving DecidableEq, Repr

/-- The synchronous prefix of `JWTAuthService.refreshToken` (which runs
atomically in the single-threaded runtime): if a refresh promise is in
flight, return it without any network activity; otherwise start
`performTokenRefresh()` — issuing its network request — and store its
promise.  Returns the promise whose outcome the caller awaits. -/
def refreshTokenCall (s : RefreshFlight) : RefreshFlight × Nat :=
  match s.refreshPromise with
  | some p => (s, p)
  | none =>
    let p := s.nextPromiseId
    ({ refreshPromise := some p
       networkCalls := s.networkCalls + 1
       nextPromiseId := p + 1 }, p)

/-- The `n` further `refresh()` calls arriving while the state is `s`: the
final state and the list of promises handed to the callers. -/
def refreshTokenCalls (s : RefreshFlight) : Nat → RefreshFlight × List Nat
  | 0 => (s, [])
  | n + 1 =>
    let (s', p) := refreshTokenCall s
    let (s'', ps) := refreshTokenCalls s' n
    (s'', p :: ps)

end Auth

namespace WS

/-- The `WebSocketState` enum. -/
inductive WSState
  | connecting
  | connected
  | disconnected
  | reconnecting
  | error
deriving DecidableEq, Repr

/-- The `WebSocketConfig` (numeric part).  Constructor defaults:
`reconnectInterval 5000, maxReconnectAttempts 5, heartbeatInterval 30000,
connectionTimeout 10000`. -/
structure WSConfig where
  reconnectInterval : Nat
  maxReconnectAttempts : Nat
  heartbeatInterval : Nat
  connectionTimeout : Nat
deriving DecidableEq, Repr

def defaultWSConfig : WSConfig :=
  { reconnectInterval := 5000
    maxReconnectAttempts := 5
    heartbeatInterval := 30000
    connectionTimeout := 10000 }

/-- The `WebSocketEvent` enum. -/
inductive WSEvent
  | new_message
  | message_read
  | user_status
  | typing
  | heartbeat
  | error
deriving DecidableEq, Repr

/-- An outbound `WebSocketMessage` before the `requestId` is attached. -/
structure OutMessage where
  type : String
  event : WSEvent
  data : String
deriving DecidableEq, Repr

/-- The reconnect-relevant state of `WebSocketService`: the state-machine
state, the consecutive-reconnect counter, whether a reconnect timer is
pending, and the two external signals the service reads
(`authService.isAuthenticated()` and `networkManager.isConnected()`). -/
structure WSService where
  state : WSState
  reconnectAttempts : Nat
  reconnectTimerSet : Bool
  authOk : Bool
  netOk : Bool
deriving DecidableEq, Repr

/-- The `WebSocketService.attemptReconnect`: stop with state `ERROR` once the
counter has reached `maxReconnectAttempts`; skip silently when
unauthenticated or offline; otherwise bump the counter, enter
`RECONNECTING` and schedule the backoff timer. -/
def attemptReconnect (cfg : WSConfig) (s : WSService) : WSService :=
  if cfg.maxReconnectAttempts ≤ s.reconnectAttempts then
    { s with state := WSState.error }
  else if ¬ s.authOk ∨ ¬ s.netOk then
    s
  else
    { s with
      reconnectAttempts := s.reconnectAttempts + 1
      state := WSState.reconnecting
      reconnectTimerSet := true }

/-- The `WebSocketService.connect`: no-op when already `CONNECTING`/`CONNECTED`
or when authentication or the network signal is missing; otherwise enter
`CONNECTING`. -/
def connect (s : WSService) : WSService :=
  if s.state = WSState.connecting ∨ s.state = WSState.connected then s
  else if ¬ s.authOk then s
  else if ¬ s.netOk then s
  else { s with state := WSState.connecting }

/-- The `WebSocketService.handleConnectionError`: clear timers, set `ERROR`,
then `attemptReconnect`. -/
def handleConnectionError (cfg : WSConfig) (s : WSService) : WSService :=
  attemptReconnect cfg { s with state := WSState.error, reconnectTimerSet := false }

/-- The `onopen` handler: clear timers, `CONNECTED`, reset the counter. -/
def onOpen (s : WSService) : WSService :=
  { s with state := WSState.connected, reconnectAttempts := 0, reconnectTimerSet := false }

/-- The `onclose` handler for a non-normal close code (`code !== 1000`):
clear timers, `DISCONNECTED`, then `attemptReconnect`. -/
def onCloseAbnormal (cfg : WSConfig) (s : WSService) : WSService :=
  attemptReconnect cfg { s with state := WSState.disconnected, reconnectTimerSet := false }

/-- The reconnect timer firing: `connect()`. -/
def reconnectTimerFire (s : WSService) : WSService :=
  connect { s with reconnectTimerSet := false }

/-- The `WebSocketService.disconnect`: clear timers, reset the counter, close
normally, `DISCONNECTED`. -/
def disconnect (s : WSService) : WSService :=
  { s with
    reconnectTimerSet := false
    reconnectAttempts := 0
    state := WSState.disconnected }

/-- The constructor's `networkManager.addListener` callback: on loss of
connectivity while `CONNECTED`, `handleNetworkDisconnect` (clear timers,
`DISCONNECTED`); on connectivity regained while `DISCONNECTED`, `connect()`;
in every other state the signal changes nothing. -/
def networkChange (s : WSService) (isConnected : Bool) : WSService :=
  let s := { s with netOk := isConnected }
  if ¬ isConnected ∧ s.state = WSState.connected then
    { s with state := WSState.disconnected, reconnectTimerSet := false }
  else if isConnected ∧ s.state = WSState.disconnected then
    connect s
  else
    s

/-- The `WebSocketService.needsResponse`: returns `false` for every event
(`// 大部分事件不需要响应，只有特定的命令需要`). -/
def needsResponse (_event : WSEvent) : Bool :=
  false

/-- Outcome of the promise returned by `send`. -/
inductive SendResult
  | resolvedNone
  | rejected (message : String)
deriving DecidableEq, Repr

/-- The pending-response callback map (`requestCallbacks`), reduced to its
set of registered requestIds. -/
structure SendState where
  service : WSService
  wsOpen : Bool
  pendingRequestIds : List String
  queued : List (OutMessage × String)
deriving DecidableEq, Repr

/-- The `WebSocketService.send`: attach a fresh `requestId`; when `CONNECTED`
with a socket present, transmit (`sockOk` tells whether `ws.send` throws),
then either register a response callback — only if `needsResponse(event)` —
or resolve immediately with `undefined`; otherwise enqueue the message and
resolve immediately with `undefined`. -/
def send (st : SendState) (msg : OutMessage) (requestId : String) (sockOk : Bool) :
    SendState × SendResult :=
  if st.service.state = WSState.connected ∧ st.wsOpen then
    if sockOk then
      if needsResponse msg.event then
        ({ st with pendingRequestIds := st.pendingRequestIds ++ [requestId] },
         SendResult.resolvedNone)
      else
        (st, SendResult.resolvedNone)
    else
      (st, SendResult.rejected "send failed")
  else
    ({ st with queued := st.queued ++ [(msg, requestId)] }, SendResult.resolvedNone)

end WS

section Fixtures

/-- A remote authority that acknowledges every submitted clientId and
reports no conflicts — the authority posited by the upload-related claims. -/
def echoRemote : Sync.Remote :=
  { upload := fun b => { conflicts := [], processed := b.map (fun c => c.clientId) }
    pages := [] }

/-- A transport on which every attempt fails with an HTTP 404 response. -/
def always404 : Api.Transport :=
  fun _ => Except.error (Api.httpStatusError 404)

/-- A fresh transport state: disconnected, counter at zero, authenticated
and online. -/
def wsFresh : WS.WSService :=
  { state := WS.WSState.disconnected
    reconnectAttempts := 0
    reconnectTimerSet := false
    authOk := true
    netOk := true }

/-- The run in which the initial connection attempt and every scheduled
reconnect attempt fail (each failure fires `onerror`, i.e.
`handleConnectionError`): connect, fail, then five timer-fire/fail
cycles under the default configuration (`maxReconnectAttempts = 5`). -/
def wsExhausted : WS.WSService :=
  (List.range 5).foldl
    (fun s _ => WS.handleConnectionError WS.defaultWSConfig (WS.reconnectTimerFire s))
    (WS.handleConnectionError WS.defaultWSConfig (WS.connect wsFresh))

/-- The `wsExhausted` after the connectivity signal goes offline and then
online again. -/
def wsExhaustedBackOnline : WS.WSService :=
  WS.networkChange (WS.networkChange wsExhausted false) true

/-- The single-entry journal state of the C4 scenario: one recorded local
update for entity `c1` with payload `"L"`. -/
def c4Start : Sync.SyncService :=
  (Sync.recordLocalChange Sync.initialSyncService
    { type := Sync.SyncDataType.messages
      action := Sync.SyncAction.update
      data := "L"
      id := some "c1"
      genId := "g"
      timestamp := "t1" }).1

/-- A storage entry is well formed when a journal key holds a parsed
`LocalChange` whose `clientId` matches the key — the shape `saveLocalChange`
always writes. -/
def wfEntry : Sync.StorageKey × Sync.StoredValue → Bool
  | (Sync.StorageKey.localChange cid, Sync.StoredValue.change c) => c.clientId = cid
  | (Sync.StorageKey.localChange _, _) => false
  | _ => true

/-- A store all of whose journal entries are well formed. -/
def WFJournal (s : Sync.Storage) : Prop :=
  ∀ p ∈ s, wfEntry p = true

/-- A sequence of `recordLocalChange` calls against a fresh service. -/
def recordAll (recs : List Sync.RecOp) : Sync.SyncService :=
  recs.foldl (fun st op => (Sync.recordLocalChange st op).1) Sync.initialSyncService

/-- A remote that reports a conflict (server payload `"S"`) for the `c1`
entry, acknowledges nothing else, and whose change feed delivers no pages
(in particular it never delivers the conflicting entity's server state). -/
def c4Remote : Sync.Remote :=
  { upload := fun _ =>
      { conflicts := [{ clientId := "c1"
                        ctype := Sync.ConflictType.version_conflict
                        serverData := "S"
                        localData := "L" }]
        processed := [] }
    pages := [] }

/-- A remote like `c4Remote` that additionally acknowledges every submitted
clientId as processed, so each batch's entries are all covered by its
response. -/
def c4CoveringRemote : Sync.Remote :=
  { upload := fun b =>
      { conflicts := [{ clientId := "c1"
                        ctype := Sync.ConflictType.version_conflict
                        serverData := "S"
                        localData := "L" }]
        processed := b.map (fun c => c.clientId) }
    pages := [] }

end Fixtures

/-- Helper for C3: every `refresh()` call finding an in-flight promise
returns that promise and leaves the single-flight state untouched. -/
theorem refreshTokenCalls_in_flight (n : Nat) (s : Auth.RefreshFlight) (p : Nat)
    (h : s.refreshPromise = some p) :
    Auth.refreshTokenCalls s n = (s, List.replicate n p) := by
  induction n with
  | zero => rfl
  | succ n ih =>
    simp [Auth.refreshTokenCalls, Auth.refreshTokenCall, h, ih, List.replicate_succ]

/-- C3: for any number `N` of `refresh()` calls made while one token
refresh is already in flight, all `N` calls are handed the very promise of
that in-flight refresh (hence resolve with its outcome), the single-flight
state is unchanged, and the one network request of the in-flight refresh
remains the only one issued regardless of `N`. -/
theorem refresh_single_flight (s0 : Auth.RefreshFlight) (n : Nat)
    (h0 : s0.refreshPromise = none) :
    (Auth.refreshTokenCalls (Auth.refreshTokenCall s0).1 n).2 =
      List.replicate n (Auth.refreshTokenCall s0).2 ∧
    (Auth.refreshTokenCalls (Auth.refreshTokenCall s0).1 n).1 =
      (Auth.refreshTokenCall s0).1 ∧
    ((Auth.refreshTokenCalls (Auth.refreshTokenCall s0).1 n).1).networkCalls =
      s0.networkCalls + 1 := by
  have h1 : (Auth.refreshTokenCall s0).1.refreshPromise = some (Auth.refreshTokenCall s0).2 := by
    simp [Auth.refreshTokenCall, h0]
  rw [refreshTokenCalls_in_flight n _ _ h1]
  refine ⟨rfl, rfl, ?_⟩
  simp [Auth.refreshTokenCall, h0]

/-- C3 witness: three concurrent callers arriving behind one in-flight
refresh started from the idle state with no prior network calls. -/
theorem refresh_single_flight_witness :
    (({ refreshPromise := none, networkCalls := 0, nextPromiseId := 7 } :
        Auth.RefreshFlight).refreshPromise = none) ∧
    ((Auth.refreshTokenCalls
        (Auth.refreshTokenCall
          { refreshPromise := none, networkCalls := 0, nextPromiseId := 7 }).1 3).2 =
      List.replicate 3
        (Auth.refreshTokenCall
          { refreshPromise := none, networkCalls := 0, nextPromiseId := 7 }).2 ∧
     (Auth.refreshTokenCalls
        (Auth.refreshTokenCall
          { refreshPromise := none, networkCalls := 0, nextPromiseId := 7 }).1 3).1 =
      (Auth.refreshTokenCall
        { refreshPromise := none, networkCalls := 0, nextPromiseId := 7 }).1 ∧
     ((Auth.refreshTokenCalls
        (Auth.refreshTokenCall
          { refreshPromise := none, networkCalls := 0, nextPromiseId := 7 }).1 3).1).networkCalls =
      0 + 1) :=
  ⟨rfl, refresh_single_flight _ 3 rfl⟩

/-- C8: for every attempt number `n ≥ 1` the ApiClient's retry delay equals
`min(retryDelayMs * 2 ^ (n - 1), 30000)`, successive delays are
monotonically non-decreasing, each next delay is the double of the previous
one until the 30-second cap, and no delay exceeds 30 seconds. -/
theorem calculateRetryDelay_spec (cfg : Api.ApiClientConfig) (n : Nat) (h : 1 ≤ n) :
    Api.calculateRetryDelay cfg n = min (cfg.retryDelay * 2 ^ (n - 1)) 30000 ∧
    Api.calculateRetryDelay cfg n ≤ Api.calculateRetryDelay cfg (n + 1) ∧
    Api.calculateRetryDelay cfg (n + 1) = min (2 * Api.calculateRetryDelay cfg n) 30000 ∧
    Api.calculateRetryDelay cfg n ≤ 30000 := by
  obtain ⟨m, rfl⟩ : ∃ m, n = m + 1 := ⟨n - 1, by omega⟩
  unfold Api.calculateRetryDelay
  have hpow : cfg.retryDelay * 2 ^ (m + 1 + 1 - 1) = 2 * (cfg.retryDelay * 2 ^ (m + 1 - 1)) := by
    simp [pow_succ]
    ring
  rw [hpow]
  refine ⟨rfl, ?_, ?_, ?_⟩ <;> omega

/-- C8 witness: the default configuration at attempt 1. -/
theorem calculateRetryDelay_spec_witness :
    1 ≤ 1 ∧
    (Api.calculateRetryDelay Api.defaultApiConfig 1 =
        min (Api.defaultApiConfig.retryDelay * 2 ^ (1 - 1)) 30000 ∧
      Api.calculateRetryDelay Api.defaultApiConfig 1 ≤
        Api.calculateRetryDelay Api.defaultApiConfig (1 + 1) ∧
      Api.calculateRetryDelay Api.defaultApiConfig (1 + 1) =
        min (2 * Api.calculateRetryDelay Api.defaultApiConfig 1) 30000 ∧
      Api.calculateRetryDelay Api.defaultApiConfig 1 ≤ 30000) :=
  ⟨le_refl 1, calculateRetryDelay_spec Api.defaultApiConfig 1 (le_refl 1)⟩

/-- C10: `needsResponse` is `false` for every event type, so a `send` made
while the transport is CONNECTED (with the socket transmitting without
throwing) resolves immediately with no data and leaves the whole send state
— in particular the pending-response callback map — unchanged: no response
correlation is ever registered and the 10-second response-timeout rejection
can never fire. -/
theorem send_never_awaits_response (st : WS.SendState) (msg : WS.OutMessage)
    (rid : String) (hconn : st.service.state = WS.WSState.connected)
    (hws : st.wsOpen = true) :
    WS.needsResponse msg.event = false ∧
    WS.send st msg rid true = (st, WS.SendResult.resolvedNone) ∧
    (WS.send st msg rid true).1.pendingRequestIds = st.pendingRequestIds := by
  refine ⟨rfl, ?_, ?_⟩ <;> simp [WS.send, WS.needsResponse, hconn, hws]

/-- C10 witness: a concrete connected send state. -/
theorem send_never_awaits_response_witness :
    (({ service := { state := WS.WSState.connected, reconnectAttempts := 0,
                     reconnectTimerSet := false, authOk := true, netOk := true },
        wsOpen := true, pendingRequestIds := [], queued := [] } :
        WS.SendState).service.state = WS.WSState.connected) ∧
    WS.needsResponse WS.WSEvent.typing = false ∧
    WS.send
      { service := { state := WS.WSState.connected, reconnectAttempts := 0,
                     reconnectTimerSet := false, authOk := true, netOk := true },
        wsOpen := true, pendingRequestIds := [], queued := [] }
      { type := "typing", event := WS.WSEvent.typing, data := "d" } "ws_1" true =
      ({ service := { state := WS.WSState.connected, reconnectAttempts := 0,
                      reconnectTimerSet := false, authOk := true, netOk := true },
         wsOpen := true, pendingRequestIds := [], queued := [] },
       WS.SendResult.resolvedNone) := by
  have h := send_never_awaits_response
    { service := { state := WS.WSState.connected, reconnectAttempts := 0,
                   reconnectTimerSet := false, authOk := true, netOk := true },
      wsOpen := true, pendingRequestIds := [], queued := [] }
    { type := "typing", event := WS.WSEvent.typing, data := "d" } "ws_1" rfl rfl
  exact ⟨rfl, h.1, h.2.1⟩

unseal Api.requestLoop in
/-- C2 (code bug): the errors `performRequest` throws are plain `Error` /
`ApiError` objects without a `response` property, so
`DEFAULT_CONFIG.retryCondition`'s `!error.response` clause is true for every
failure — including 4xx-equivalent HTTP failures, which its own comment
(只对网络错误和5xx错误重试, "retry only on network and 5xx errors") and the
spec say must never be retried.  On a transport that answers HTTP 404 to
every attempt, the default client performs `maxRetries + 1 = 4`
`performRequest` calls instead of surfacing the error after the first. -/
theorem request_retries_4xx_bug :
    Api.defaultRetryCondition (Api.httpStatusError 404) = true ∧
    (Api.request Api.defaultApiConfig always404).calls = 4 ∧
    (Api.request Api.defaultApiConfig always404).outcome =
      Except.error (Api.httpStatusError 404) :=
  ⟨rfl, rfl, rfl⟩

/-- Support for C6: the equivalence `authState.isAuthenticated =
tokenInfo.isSome` holds initially and is preserved by every operation that
rewrites the auth state (`login` success, `clearAuthState` — hence logout
and auth-failure paths — and `performTokenRefresh`), so it holds in every
reachable state. -/
theorem authFlag_iff_token_preserved (s : Auth.AuthSvc) (d : Auth.LoginResponse)
    (outcome : Except Auth.RefreshErr Auth.LoginResponse) (now : Nat)
    (hinv : s.authState.isAuthenticated = s.authState.tokenInfo.isSome) :
    Auth.initialAuthSvc.authState.isAuthenticated =
      Auth.initialAuthSvc.authState.tokenInfo.isSome ∧
    (Auth.loginSuccess s d now).authState.isAuthenticated =
      (Auth.loginSuccess s d now).authState.tokenInfo.isSome ∧
    (Auth.clearAuthState s).authState.isAuthenticated =
      (Auth.clearAuthState s).authState.tokenInfo.isSome ∧
    (Auth.performTokenRefresh s outcome now).1.authState.isAuthenticated =
      (Auth.performTokenRefresh s outcome now).1.authState.tokenInfo.isSome := by
  refine ⟨rfl, rfl, rfl, ?_⟩
  unfold Auth.performTokenRefresh
  cases ht : s.authState.tokenInfo with
  | none => simpa [ht] using hinv
  | some t =>
    by_cases hrt : t.refreshToken = ""
    · simpa [ht, hrt] using hinv
    · cases outcome with
      | ok d' => simp [ht, hrt, hinv]
      | error e =>
        by_cases hae : Auth.isAuthError e
        · simp [ht, hrt, hae, Auth.clearAuthState, Auth.initialAuthState]
        · simpa [ht, hrt, hae] using hinv

/-- C6 counterexample: a login response carrying an empty-string access
token (reachable through `login`) gives a state whose credential passes the
5-minute expiry-with-buffer check, yet `getAccessToken()` returns `null`,
because `tokenInfo?.accessToken || null` coerces the falsy empty string to
`null`.  So "returns the stored access token exactly when expiresAt lies
more than the buffer in the future" is false as stated. -/
theorem getAccessToken_empty_token_cex :
    (Auth.loginSuccess Auth.initialAuthSvc
        { accessToken := "", refreshToken := "r", expiresIn := 3600, user := "u" }
        0).authState.tokenInfo =
      some { accessToken := "", refreshToken := "r", expiresIn := 3600,
             expiresAt := 3600000, tokenType := "Bearer" } ∧
    Auth.isCurrentTokenValid
      (Auth.loginSuccess Auth.initialAuthSvc
        { accessToken := "", refreshToken := "r", expiresIn := 3600, user := "u" }
        0).authState 0 = true ∧
    Auth.getAccessToken
      (Auth.loginSuccess Auth.initialAuthSvc
        { accessToken := "", refreshToken := "r", expiresIn := 3600, user := "u" }
        0).authState 0 = none := by
  refine ⟨rfl, by decide, by decide⟩

/-- C6 (amended): in any state satisfying the reachability invariant
`isAuthenticated = tokenInfo.isSome`, `isAuthenticated()` returns true
exactly when a non-null credential passes the expiry-with-5-minute-buffer
check, and `getAccessToken()` returns the stored access token exactly when
that check passes *and the stored token is a non-empty string* (the `||
null` coercion), returning `null` otherwise. -/
theorem auth_token_access_spec (a : Auth.AuthState) (now : Nat)
    (hinv : a.isAuthenticated = a.tokenInfo.isSome) :
    (Auth.isAuthenticatedFn a now = true ↔
      ∃ t, a.tokenInfo = some t ∧ now + Auth.bufferTime < t.expiresAt) ∧
    (∀ tok, Auth.getAccessToken a now = some tok ↔
      ∃ t, a.tokenInfo = some t ∧ now + Auth.bufferTime < t.expiresAt ∧
        t.accessToken = tok ∧ tok ≠ "") ∧
    (Auth.getAccessToken a now = none ↔
      ¬ ∃ t, a.tokenInfo = some t ∧ now + Auth.bufferTime < t.expiresAt ∧
        t.accessToken ≠ "") := by
  cases ht : a.tokenInfo with
  | none =>
    rw [ht] at hinv
    simp [Auth.isAuthenticatedFn, Auth.isCurrentTokenValid, Auth.getAccessToken, ht, hinv]
  | some t =>
    rw [ht] at hinv
    simp only [Option.isSome_some] at hinv
    by_cases hvalid : now + Auth.bufferTime < t.expiresAt
    · by_cases hempty : t.accessToken = ""
      · simp [Auth.isAuthenticatedFn, Auth.isCurrentTokenValid, Auth.isTokenValid,
              Auth.getAccessToken, ht, hinv, hvalid, hempty]
      · simp only [Auth.isAuthenticatedFn, Auth.isCurrentTokenValid, Auth.isTokenValid,
                   Auth.getAccessToken, ht, hinv, hvalid, hempty]
        refine ⟨by simp [hvalid], fun tok => ?_, by simp [hvalid, hempty]⟩
        constructor
        · rintro h
          simp only [decide_eq_true_eq] at h
          simp only [hvalid, if_true, hempty, if_false, reduceIte] at h
          cases h
          exact ⟨t, rfl, hvalid, rfl, hempty⟩
        · rintro ⟨t', ht', _, rfl, _⟩
          cases ht'
          simp [hvalid, hempty]
    · simp [Auth.isAuthenticatedFn, Auth.isCurrentTokenValid, Auth.isTokenValid,
            Auth.getAccessToken, ht, hinv, hvalid]

/-- C6 witness: a freshly logged-in state with a non-empty token, checked
at a time well before expiry. -/
theorem auth_token_access_spec_witness :
    (let a := (Auth.loginSuccess Auth.initialAuthSvc
        { accessToken := "tok", refreshToken := "r", expiresIn := 3600, user := "u" }
        0).authState
     a.isAuthenticated = a.tokenInfo.isSome ∧
     (Auth.isAuthenticatedFn a 0 = true ↔
       ∃ t, a.tokenInfo = some t ∧ 0 + Auth.bufferTime < t.expiresAt) ∧
     (∀ tok, Auth.getAccessToken a 0 = some tok ↔
       ∃ t, a.tokenInfo = some t ∧ 0 + Auth.bufferTime < t.expiresAt ∧
         t.accessToken = tok ∧ tok ≠ "") ∧
     (Auth.getAccessToken a 0 = none ↔
       ¬ ∃ t, a.tokenInfo = some t ∧ 0 + Auth.bufferTime < t.expiresAt ∧
         t.accessToken ≠ "")) :=
  ⟨rfl, auth_token_access_spec _ 0 rfl⟩

/-- C7: when a token refresh fails with an authentication-class error
(`UNAUTHORIZED` / `TOKEN_EXPIRED`, i.e. refresh token invalid or expired),
the service clears the in-memory credential and the persisted secure-store
copy — returning to the unauthenticated initial state — and emits exactly
the authentication-required event; when it fails with any other error, the
state (still authenticated, previous credential untouched) is left exactly
as it was and only a token-refresh-failed event is emitted. -/
theorem refresh_failure_spec (s : Auth.AuthSvc) (e : Auth.RefreshErr) (now : Nat)
    (t : Auth.JWTTokenInfo) (ht : s.authState.tokenInfo = some t)
    (hrt : t.refreshToken ≠ "") :
    (Auth.isAuthError e = true →
      Auth.performTokenRefresh s (Except.error e) now =
        ({ authState := { isAuthenticated := false, user := none, tokenInfo := none,
                          lastRefreshTime := 0 },
           storedTokens := none, refreshTimerSet := false },
         false, [Auth.AuthEvt.authenticationRequired])) ∧
    (Auth.isAuthError e = false →
      Auth.performTokenRefresh s (Except.error e) now =
        (s, false, [Auth.AuthEvt.tokenRefreshFailed])) := by
  constructor <;> intro hae <;>
    simp [Auth.performTokenRefresh, ht, hrt, hae, Auth.clearAuthState, Auth.initialAuthState]

/-- C7 witness: an authenticated state hit by a `TOKEN_EXPIRED` refresh
failure (auth-class branch; the non-auth branch hypothesis is vacuous
there). -/
theorem refresh_failure_spec_witness :
    (let s := Auth.loginSuccess Auth.initialAuthSvc
        { accessToken := "tok", refreshToken := "r", expiresIn := 3600, user := "u" } 0
     s.authState.tokenInfo = some { accessToken := "tok", refreshToken := "r",
                                    expiresIn := 3600, expiresAt := 3600000,
                                    tokenType := "Bearer" } ∧
     Auth.isAuthError { code := some "TOKEN_EXPIRED", message := "expired" } = true ∧
     Auth.performTokenRefresh s
        (Except.error { code := some "TOKEN_EXPIRED", message := "expired" }) 7 =
       ({ authState := { isAuthenticated := false, user := none, tokenInfo := none,
                         lastRefreshTime := 0 },
          storedTokens := none, refreshTimerSet := false },
        false, [Auth.AuthEvt.authenticationRequired])) := by
  refine ⟨rfl, rfl, ?_⟩
  exact (refresh_failure_spec _ _ 7 _ rfl (by decide)).1 rfl

/-- C5 counterexample: drive the transport through the initial connection
failure and its five automatic reconnect failures — it is then in ERROR
with the counter at `maxReconnectAttempts = 5` and no timer pending.  Now
let the connectivity signal go offline and come back online: the service
stays in ERROR, schedules nothing, and the attempt counter is *not* reset,
because the constructor's network listener only calls `connect()` from the
DISCONNECTED state and never touches `reconnectAttempts`.  This refutes the
claim's "connectivity offline→online resets the counter and automatic
connection resumes". -/
theorem reconnect_cap_no_online_reset_cex :
    wsExhausted.state = WS.WSState.error ∧
    wsExhausted.reconnectAttempts = 5 ∧
    wsExhausted.reconnectTimerSet = false ∧
    wsExhaustedBackOnline.state = WS.WSState.error ∧
    wsExhaustedBackOnline.reconnectAttempts = 5 ∧
    wsExhaustedBackOnline.reconnectTimerSet = false := by
  decide

/-- C5 (amended): once the counter has reached `maxReconnectAttempts`,
the next failed attempt transitions to ERROR without scheduling a further
automatic attempt or touching the counter.  A connectivity offline→online
transition never resets the attempt counter; it leaves any
non-DISCONNECTED state (in particular ERROR) unchanged apart from the
connectivity flag, and resumes connection (entering CONNECTING, with the
counter still unchanged) only from the DISCONNECTED state of an
authenticated service.  The counter is reset only by a successful
connection open or by an explicit `disconnect()`. -/
theorem reconnect_cap_and_reset_spec (cfg : WS.WSConfig) (s sErr sDis : WS.WSService)
    (hcap : cfg.maxReconnectAttempts ≤ s.reconnectAttempts)
    (hnd : sErr.state ≠ WS.WSState.disconnected)
    (hd : sDis.state = WS.WSState.disconnected) (ha : sDis.authOk = true) :
    WS.attemptReconnect cfg s = { s with state := WS.WSState.error } ∧
    WS.networkChange sErr true = { sErr with netOk := true } ∧
    WS.networkChange sDis true =
      { sDis with netOk := true, state := WS.WSState.connecting } ∧
    (WS.onOpen s).reconnectAttempts = 0 ∧
    (WS.disconnect s).reconnectAttempts = 0 := by
  refine ⟨?_, ?_, ?_, rfl, rfl⟩
  · simp [WS.attemptReconnect, hcap]
  · simp [WS.networkChange, hnd]
  · simp [WS.networkChange, WS.connect, hd, ha]

/-- C5 witness: the exhausted run (counter at the cap, state ERROR) and a
fresh disconnected authenticated service. -/
theorem reconnect_cap_and_reset_spec_witness :
    (WS.defaultWSConfig.maxReconnectAttempts ≤ wsExhausted.reconnectAttempts ∧
     wsExhausted.state ≠ WS.WSState.disconnected ∧
     wsFresh.state = WS.WSState.disconnected ∧ wsFresh.authOk = true) ∧
    (WS.attemptReconnect WS.defaultWSConfig wsExhausted =
      { wsExhausted with state := WS.WSState.error } ∧
     WS.networkChange wsExhausted true = { wsExhausted with netOk := true } ∧
     WS.networkChange wsFresh true =
       { wsFresh with netOk := true, state := WS.WSState.connecting } ∧
     (WS.onOpen wsExhausted).reconnectAttempts = 0 ∧
     (WS.disconnect wsExhausted).reconnectAttempts = 0) :=
  ⟨by decide,
   reconnect_cap_and_reset_spec WS.defaultWSConfig wsExhausted wsExhausted wsFresh
     (by decide) (by decide) (by decide) (by decide)⟩

/-- Storage support: when the key is already present, `setItem` rewrites in
place and the key list is unchanged. -/
theorem setItem_keys_of_mem (s : Sync.Storage) (k : Sync.StorageKey) (v : Sync.StoredValue)
    (h : ∃ p ∈ s, p.1 = k) :
    (Sync.setItem s k v).map Prod.fst = s.map Prod.fst := by
  have hany : s.any (fun p => p.1 = k) = true := by
    rcases h with ⟨p, hp, hpk⟩
    exact List.any_eq_true.mpr ⟨p, hp, by simpa using hpk⟩
  unfold Sync.setItem
  rw [if_pos hany, List.map_map]
  apply List.map_congr_left
  intro p _
  by_cases hpk : p.1 = k
  · simp [hpk]
  · simp [hpk]

/-- Storage support: the in-place rewrite branch of `setItem` makes the key
look up to the new value. -/
theorem find?_map_update (s : Sync.Storage) (k : Sync.StorageKey) (v : Sync.StoredValue)
    (h : s.any (fun p => p.1 = k) = true) :
    (s.map (fun p => if p.1 = k then (k, v) else p)).find? (fun p => p.1 = k) =
      some (k, v) := by
  induction s with
  | nil => simp at h
  | cons p rest ih =>
    by_cases hpk : p.1 = k
    · simp [hpk, List.find?_cons]
    · have hrest : rest.any (fun q => q.1 = k) = true := by
        simpa [List.any_cons, hpk] using h
      simpa [hpk, List.find?_cons] using ih hrest

/-- Storage support: `getItem` after `setItem` on the same key returns the
new value. -/
theorem getItem_setItem_self (s : Sync.Storage) (k : Sync.StorageKey) (v : Sync.StoredValue) :
    Sync.getItem (Sync.setItem s k v) k = some v := by
  by_cases hany : s.any (fun p => p.1 = k) = true
  · unfold Sync.setItem Sync.getItem
    rw [if_pos hany, find?_map_update s k v hany]
    rfl
  · have hnone : ∀ p ∈ s, ¬ p.1 = k := by
      intro p hp hpk
      exact hany (List.any_eq_true.mpr ⟨p, hp, by simpa using hpk⟩)
    unfold Sync.setItem Sync.getItem
    rw [if_neg hany]
    induction s with
    | nil => simp [List.find?_cons]
    | cons p rest ih =>
      have hpk : ¬ p.1 = k := hnone p (List.mem_cons_self p rest)
      have hrest : ∀ q ∈ rest, ¬ q.1 = k := fun q hq => hnone q (List.mem_cons_of_mem p hq)
      have hanyrest : ¬ rest.any (fun q => q.1 = k) = true := by
        intro hr
        rcases List.any_eq_true.mp hr with ⟨q, hq, hqk⟩
        exact hrest q hq (by simpa using hqk)
      simpa [List.cons_append, List.find?_cons, hpk] using ih hanyrest hrest

/-- Storage support: under duplicate-free keys, two entries with the same
key are the same entry. -/
theorem mem_eq_of_nodup_keys (s : Sync.Storage) (p q : Sync.StorageKey × Sync.StoredValue)
    (hnd : (s.map Prod.fst).Nodup) (hp : p ∈ s) (hq : q ∈ s) (hk : p.1 = q.1) : p = q := by
  induction s with
  | nil => cases hp
  | cons r rest ih =>
    rw [List.map_cons, List.nodup_cons] at hnd
    rcases List.mem_cons.mp hp with hp1 | hp1 <;> rcases List.mem_cons.mp hq with hq1 | hq1
    · rw [hp1, hq1]
    · exfalso
      apply hnd.1
      rw [hp1] at hk
      exact hk ▸ List.mem_map_of_mem Prod.fst hq1
    · exfalso
      apply hnd.1
      rw [hq1] at hk
      exact hk ▸ List.mem_map_of_mem Prod.fst hp1
    · exact ih hnd.2 hp1 hq1

/-- List support: a pointwise rewrite that preserves whether each element
is kept by a `filterMap` preserves the `filterMap`'s length. -/
theorem filterMap_map_length_congr {α β : Type} (f : α → Option β) (u : α → α)
    (s : List α) (h : ∀ a ∈ s, (f (u a)).isSome = (f a).isSome) :
    (List.filterMap f (s.map u)).length = (List.filterMap f s).length := by
  induction s with
  | nil => rfl
  | cons a rest ih =>
    have hrest : ∀ b ∈ rest, (f (u b)).isSome = (f b).isSome :=
      fun b hb => h b (List.mem_cons_of_mem a hb)
    have ha := h a (List.mem_cons_self a rest)
    rw [List.map_cons, List.filterMap_cons, List.filterMap_cons]
    cases hfu : f (u a) with
    | none =>
      cases hfa : f a with
      | none => exact ih hrest
      | some b => rw [hfu, hfa] at ha; simp at ha
    | some b =>
      cases hfa : f a with
      | none => rw [hfu, hfa] at ha; simp at ha
      | some b' => simpa using ih hrest

/-- Storage support: rewriting the (change-valued) entries of a journal key
with another change leaves the parsed journal's length unchanged. -/
theorem raw_map_update_length (s : Sync.Storage) (cid : String) (cNew : Sync.LocalChange)
    (hch : ∀ p ∈ s, p.1 = Sync.StorageKey.localChange cid →
      ∃ c, p.2 = Sync.StoredValue.change c) :
    (Sync.getLocalChangesRaw (s.map (fun p =>
        if p.1 = Sync.StorageKey.localChange cid
        then (Sync.StorageKey.localChange cid, Sync.StoredValue.change cNew) else p))).length
      = (Sync.getLocalChangesRaw s).length := by
  unfold Sync.getLocalChangesRaw
  apply filterMap_map_length_congr
  intro p hp
  by_cases hpk : p.1 = Sync.StorageKey.localChange cid
  · rcases hch p hp hpk with ⟨c, hc⟩
    rcases p with ⟨pk, pv⟩
    simp only at hpk hc
    rw [hpk, hc]
    simp [hpk, Sync.parseJournalEntry]
  · rcases p with ⟨pk, pv⟩
    simp [hpk]

/-- C9: the journal keeps at most one entry per clientId — recording a
change whose caller-supplied id equals the clientId of an existing journal
entry overwrites that entry in place (same storage key), so the key set of
the store is unchanged, the journal key now holds the new change, and the
pending count still equals the number of journal entries (distinct
clientIds) rather than the number of recording calls. -/
theorem recordLocalChange_overwrites (st : Sync.SyncService) (op : Sync.RecOp)
    (cid : String) (c0 : Sync.LocalChange)
    (hid : op.id = some cid)
    (hnd : (st.storage.map Prod.fst).Nodup)
    (hold : Sync.getItem st.storage (Sync.StorageKey.localChange cid) =
      some (Sync.StoredValue.change c0)) :
    (Sync.recordLocalChange st op).2 = cid ∧
    (Sync.recordLocalChange st op).1.storage.map Prod.fst = st.storage.map Prod.fst ∧
    Sync.getItem (Sync.recordLocalChange st op).1.storage (Sync.StorageKey.localChange cid) =
      some (Sync.StoredValue.change
        { type := op.type, action := op.action, data := op.data,
          clientId := cid, timestamp := op.timestamp }) ∧
    (Sync.recordLocalChange st op).1.sync.pendingChanges =
      (Sync.getLocalChanges st.storage).length := by
  obtain ⟨p0, hf⟩ : ∃ p0, st.storage.find? (fun p => p.1 = Sync.StorageKey.localChange cid) =
      some p0 := by
    unfold Sync.getItem at hold
    cases hf : st.storage.find? (fun p => p.1 = Sync.StorageKey.localChange cid) with
    | none => rw [hf] at hold; simp at hold
    | some p0 => exact ⟨p0, rfl⟩
  have hp0mem : p0 ∈ st.storage := List.mem_of_find?_eq_some hf
  have hp0key : p0.1 = Sync.StorageKey.localChange cid := by
    simpa using List.find?_some hf
  have hp0val : p0.2 = Sync.StoredValue.change c0 := by
    unfold Sync.getItem at hold
    rw [hf] at hold
    simpa using hold
  have hch : ∀ p ∈ st.storage, p.1 = Sync.StorageKey.localChange cid →
      ∃ c, p.2 = Sync.StoredValue.change c := by
    intro p hp hpk
    have hpp0 : p = p0 := mem_eq_of_nodup_keys st.storage p p0 hnd hp hp0mem
      (by rw [hpk, hp0key])
    exact ⟨c0, by rw [hpp0, hp0val]⟩
  have hany : st.storage.any (fun p => p.1 = Sync.StorageKey.localChange cid) = true :=
    List.any_eq_true.mpr ⟨p0, hp0mem, by simpa using hp0key⟩
  have hex : ∃ p ∈ st.storage, p.1 = Sync.StorageKey.localChange cid := ⟨p0, hp0mem, hp0key⟩
  have hlen : ∀ s : Sync.Storage,
      (Sync.getLocalChanges s).length = (Sync.getLocalChangesRaw s).length := fun s =>
    (List.mergeSort_perm (Sync.getLocalChangesRaw s) (fun a b => a.timestamp ≤ b.timestamp)).length_eq
  refine ⟨by simp [Sync.recordLocalChange, hid], ?_, ?_, ?_⟩
  · simp only [Sync.recordLocalChange, Sync.updatePendingChangesCount, hid, Option.getD_some,
      Sync.saveLocalChange]
    exact setItem_keys_of_mem st.storage _ _ hex
  · simp only [Sync.recordLocalChange, Sync.updatePendingChangesCount, hid, Option.getD_some,
      Sync.saveLocalChange]
    exact getItem_setItem_self st.storage _ _
  · simp only [Sync.recordLocalChange, Sync.updatePendingChangesCount, hid, Option.getD_some,
      Sync.saveLocalChange]
    rw [hlen, hlen]
    have hset : Sync.setItem st.storage (Sync.StorageKey.localChange cid)
        (Sync.StoredValue.change
          { type := op.type, action := op.action, data := op.data,
            clientId := cid, timestamp := op.timestamp }) =
        st.storage.map (fun p =>
          if p.1 = Sync.StorageKey.localChange cid
          then (Sync.StorageKey.localChange cid,
                Sync.StoredValue.change
                  { type := op.type, action := op.action, data := op.data,
                    clientId := cid, timestamp := op.timestamp })
          else p) := by
      unfold Sync.setItem
      rw [if_pos hany]
    rw [hset]
    exact raw_map_update_length st.storage cid _ hch

/-- C9 witness: recording twice under the same caller-supplied id `x`. -/
theorem recordLocalChange_overwrites_witness :
    (let st := (Sync.recordLocalChange Sync.initialSyncService
        { type := Sync.SyncDataType.messages, action := Sync.SyncAction.create,
          data := "a", id := some "x", genId := "g", timestamp := "t0" }).1
     let op : Sync.RecOp :=
        { type := Sync.SyncDataType.messages, action := Sync.SyncAction.update,
          data := "b", id := some "x", genId := "g2", timestamp := "t1" }
     op.id = some "x" ∧
     (st.storage.map Prod.fst).Nodup ∧
     Sync.getItem st.storage (Sync.StorageKey.localChange "x") =
       some (Sync.StoredValue.change
         { type := Sync.SyncDataType.messages, action := Sync.SyncAction.create,
           data := "a", clientId := "x", timestamp := "t0" }) ∧
     ((Sync.recordLocalChange st op).2 = "x" ∧
      (Sync.recordLocalChange st op).1.storage.map Prod.fst = st.storage.map Prod.fst ∧
      Sync.getItem (Sync.recordLocalChange st op).1.storage (Sync.StorageKey.localChange "x") =
        some (Sync.StoredValue.change
          { type := Sync.SyncDataType.messages, action := Sync.SyncAction.update,
            data := "b", clientId := "x", timestamp := "t1" }) ∧
      (Sync.recordLocalChange st op).1.sync.pendingChanges =
        (Sync.getLocalChanges st.storage).length)) := by
  refine ⟨rfl, by decide, rfl, ?_⟩
  exact recordLocalChange_overwrites _ _ "x" _ rfl (by decide) rfl

/-- Batching support: concatenating the `batchSize`-chunks restores the
original journal list. -/
theorem chunkArray_flatten (size : Nat) (hs : 0 < size) (l : List Sync.LocalChange) :
    (Sync.chunkArray l size).flatten = l := by
  have H : ∀ n (l : List Sync.LocalChange), l.length ≤ n →
      (Sync.chunkArray l size).flatten = l := by
    intro n
    induction n with
    | zero =>
      intro l hl
      have hnil : l = [] := List.length_eq_zero.mp (Nat.le_zero.mp hl)
      subst hnil
      rw [Sync.chunkArray]
      simp
    | succ n ih =>
      intro l hl
      by_cases h0 : l = []
      · subst h0
        rw [Sync.chunkArray]
        simp
      · rw [Sync.chunkArray]
        have hcond : ¬ (l = [] ∨ size = 0) := by
          rintro (h | h)
          · exact h0 h
          · omega
        rw [dif_neg hcond, List.flatten_cons]
        have hlen : l.length ≤ n + 1 := hl
        have hdrop : (l.drop size).length ≤ n := by
          rw [List.length_drop]
          have hpos : 0 < l.length := List.length_pos.mpr h0
          omega
        rw [ih (l.drop size) hdrop, List.take_append_drop]
  exact H l.length l le_rfl

/-- List support: a pointwise rewrite that does not change what `filterMap`
extracts from each element leaves the `filterMap` unchanged. -/
theorem filterMap_map_congr {α β : Type} (f : α → Option β) (u : α → α)
    (s : List α) (h : ∀ a ∈ s, f (u a) = f a) :
    List.filterMap f (s.map u) = List.filterMap f s := by
  induction s with
  | nil => rfl
  | cons a rest ih =>
    have hrest : ∀ b ∈ rest, f (u b) = f b := fun b hb => h b (List.mem_cons_of_mem a hb)
    rw [List.map_cons, List.filterMap_cons, List.filterMap_cons,
        h a (List.mem_cons_self a rest), ih hrest]

/-- Storage support: persisting `last_sync_time` does not change the parsed
journal. -/
theorem raw_setItem_lastSync (s : Sync.Storage) (n : Nat) :
    Sync.getLocalChangesRaw
        (Sync.setItem s Sync.StorageKey.lastSyncTime (Sync.StoredValue.num n)) =
      Sync.getLocalChangesRaw s := by
  unfold Sync.setItem
  by_cases hany : s.any (fun p => p.1 = Sync.StorageKey.lastSyncTime) = true
  · rw [if_pos hany]
    unfold Sync.getLocalChangesRaw
    apply filterMap_map_congr
    intro p _
    by_cases hpk : p.1 = Sync.StorageKey.lastSyncTime
    · rcases p with ⟨pk, pv⟩
      simp only at hpk
      rw [hpk]
      simp [Sync.parseJournalEntry]
    · simp [hpk]
  · rw [if_neg hany]
    unfold Sync.getLocalChangesRaw
    rw [List.filterMap_append]
    simp [Sync.parseJournalEntry]

/-- Journal-removal support: `removeProcessedChanges` is the filter keeping
entries whose key is not among the removed clientIds' journal keys. -/
theorem removeProcessedChanges_eq_filter (ids : List String) (s : Sync.Storage) :
    Sync.removeProcessedChanges s ids =
      s.filter (fun p => ! ids.any (fun cid => p.1 = Sync.StorageKey.localChange cid)) := by
  induction ids generalizing s with
  | nil =>
    unfold Sync.removeProcessedChanges
    simp
  | cons cid ids ih =>
    unfold Sync.removeProcessedChanges at ih ⊢
    rw [List.foldl_cons, ih]
    unfold Sync.removeLocalChange Sync.removeItem
    rw [List.filter_filter]
    apply List.filter_congr
    intro p _
    cases h1 : (decide (p.1 = Sync.StorageKey.localChange cid)) <;>
      cases h2 : ids.any (fun c => p.1 = Sync.StorageKey.localChange c) <;>
        simp [List.any_cons, h1, h2]

/-- Upload support: under the server-wins strategy, resolving the reported
conflicts just deletes their journal entries. -/
theorem handleUploadConflicts_server_wins (cfg : Sync.SyncConfig)
    (hsw : cfg.conflictResolution = Sync.ConflictResolutionStrategy.server_wins)
    (conflicts : List Sync.SyncConflict) (st : Sync.SyncService) :
    Sync.handleUploadConflicts cfg st conflicts =
      { st with
        storage := Sync.removeProcessedChanges st.storage
          (conflicts.map (fun c => c.clientId)) } := by
  induction conflicts generalizing st with
  | nil => rfl
  | cons c cs ih =>
    unfold Sync.handleUploadConflicts at ih ⊢
    rw [List.foldl_cons]
    have hres : Sync.resolveConflict cfg st c =
        { st with storage := Sync.removeLocalChange st.storage c.clientId } := by
      unfold Sync.resolveConflict
      rw [hsw]
    rw [hres, ih]
    rfl

/-- Upload support: a successful batch exchange only shrinks the journal,
removing the conflicted and the processed clientIds. -/
theorem uploadBatch_storage (cfg : Sync.SyncConfig) (remote : Sync.Remote)
    (hsw : cfg.conflictResolution = Sync.ConflictResolutionStrategy.server_wins)
    (st : Sync.SyncService) (b : List Sync.LocalChange) :
    Sync.uploadBatch cfg remote st b =
      { st with
        storage := Sync.removeProcessedChanges st.storage
          ((remote.upload b).conflicts.map (fun c => c.clientId) ++
            (remote.upload b).processed) } := by
  unfold Sync.uploadBatch
  dsimp only
  rw [handleUploadConflicts_server_wins cfg hsw]
  unfold Sync.removeProcessedChanges
  rw [List.foldl_append]

/-- Upload support: the sequential batch loop removes, from the original
store, exactly the clientIds conflicted or processed across all batches;
`sync` flags and the entity store are untouched. -/
theorem uploadBatches_storage (cfg : Sync.SyncConfig) (remote : Sync.Remote)
    (hsw : cfg.conflictResolution = Sync.ConflictResolutionStrategy.server_wins)
    (batches : List (List Sync.LocalChange)) (st : Sync.SyncService) :
    batches.foldl (Sync.uploadBatch cfg remote) st =
      { st with
        storage := Sync.removeProcessedChanges st.storage
          ((batches.map (fun b => (remote.upload b).conflicts.map (fun c => c.clientId) ++
              (remote.upload b).processed)).flatten) } := by
  induction batches generalizing st with
  | nil => rfl
  | cons b bs ih =>
    rw [List.foldl_cons, uploadBatch_storage cfg remote hsw st b, ih]
    simp only [List.map_cons, List.flatten_cons]
    unfold Sync.removeProcessedChanges
    simp [List.foldl_append]

/-- Journal support: a parsed element comes from a journal-keyed `change`
entry. -/
theorem parseJournalEntry_some (p : Sync.StorageKey × Sync.StoredValue)
    (c : Sync.LocalChange) (h : Sync.parseJournalEntry p = some c) :
    ∃ cid, p = (Sync.StorageKey.localChange cid, Sync.StoredValue.change c) := by
  rcases p with ⟨pk, pv⟩
  cases pk with
  | localChange cid =>
    cases pv with
    | change c' =>
      simp only [Sync.parseJournalEntry, Option.some.injEq] at h
      exact ⟨cid, by rw [h]⟩
    | num n => simp [Sync.parseJournalEntry] at h
    | conflict x => simp [Sync.parseJournalEntry] at h
  | lastSyncTime => simp [Sync.parseJournalEntry] at h
  | conflictKey cid => simp [Sync.parseJournalEntry] at h

/-- Journal support: a well-formed entry under a journal key holds a change
whose clientId is the key's. -/
theorem wfEntry_journal (p : Sync.StorageKey × Sync.StoredValue) (cid : String)
    (hwf : wfEntry p = true) (hk : p.1 = Sync.StorageKey.localChange cid) :
    ∃ c, p.2 = Sync.StoredValue.change c ∧ c.clientId = cid := by
  rcases p with ⟨pk, pv⟩
  simp only at hk
  subst hk
  cases pv with
  | change c => exact ⟨c, rfl, by simpa [wfEntry] using hwf⟩
  | num n => simp [wfEntry] at hwf
  | conflict x => simp [wfEntry] at hwf

/-- Journal support: removing a superset of the journal's clientIds leaves
no journal entry in a well-formed store. -/
theorem removeAll_journal_empty (s : Sync.Storage) (hwf : WFJournal s) (ids : List String)
    (hsub : ∀ c ∈ Sync.getLocalChangesRaw s, c.clientId ∈ ids) :
    Sync.getLocalChangesRaw (Sync.removeProcessedChanges s ids) = [] := by
  rw [removeProcessedChanges_eq_filter]
  unfold Sync.getLocalChangesRaw
  rw [List.filterMap_eq_nil]
  intro p hp
  rcases List.mem_filter.mp hp with ⟨hpmem, hpred⟩
  cases hc : Sync.parseJournalEntry p with
  | none => rfl
  | some c =>
    exfalso
    obtain ⟨cid, hpshape⟩ := parseJournalEntry_some p c hc
    obtain ⟨c', hc'val, hc'id⟩ := wfEntry_journal p cid (hwf p hpmem) (by rw [hpshape])
    have hcc : c' = c := by
      have h2 : p.2 = Sync.StoredValue.change c := by rw [hpshape]
      rw [h2] at hc'val
      injection hc'val with h3
      exact h3.symm
    subst hcc
    have hcmem : c' ∈ Sync.getLocalChangesRaw s :=
      List.mem_filterMap.mpr ⟨p, hpmem, hc⟩
    have hin : c'.clientId ∈ ids := hsub c' hcmem
    have hany : ids.any (fun cid' => p.1 = Sync.StorageKey.localChange cid') = true := by
      refine List.any_eq_true.mpr ⟨c'.clientId, hin, ?_⟩
      rw [hpshape, hc'id]
      simp
    rw [hany] at hpred
    simp at hpred

/-- Journal support: with duplicate-free keys, the parsed journal's
clientIds are duplicate-free. -/
theorem raw_clientIds_nodup (s : Sync.Storage) (hwf : WFJournal s)
    (hnd : (s.map Prod.fst).Nodup) :
    ((Sync.getLocalChangesRaw s).map (fun c => c.clientId)).Nodup := by
  induction s with
  | nil => simp [Sync.getLocalChangesRaw]
  | cons p rest ih =>
    have hwfr : WFJournal rest := fun q hq => hwf q (List.mem_cons_of_mem p hq)
    rw [List.map_cons, List.nodup_cons] at hnd
    unfold Sync.getLocalChangesRaw
    rw [List.filterMap_cons]
    cases hfp : Sync.parseJournalEntry p with
    | none => exact ih hwfr hnd.2
    | some c =>
      rw [List.map_cons, List.nodup_cons]
      refine ⟨?_, ih hwfr hnd.2⟩
      intro hmem
      rcases List.mem_map.mp hmem with ⟨c', hc'raw, hcc⟩
      rcases List.mem_filterMap.mp hc'raw with ⟨q, hq, hfq⟩
      obtain ⟨cidp, hpshape⟩ := parseJournalEntry_some p c hfp
      obtain ⟨cidq, hqshape⟩ := parseJournalEntry_some q c' hfq
      obtain ⟨cp, hcpval, hcpid⟩ :=
        wfEntry_journal p cidp (hwf p (List.mem_cons_self p rest)) (by rw [hpshape])
      obtain ⟨cq, hcqval, hcqid⟩ :=
        wfEntry_journal q cidq (hwfr q hq) (by rw [hqshape])
      have hcp : cp = c := by
        have h2 : p.2 = Sync.StoredValue.change c := by rw [hpshape]
        rw [h2] at hcpval
        injection hcpval with h3
        exact h3.symm
      have hcq : cq = c' := by
        have h2 : q.2 = Sync.StoredValue.change c' := by rw [hqshape]
        rw [h2] at hcqval
        injection hcqval with h3
        exact h3.symm
      subst hcp
      subst hcq
      apply hnd.1
      have hqk : q.1 = p.1 := by
        rw [hpshape, hqshape]
        simp only
        rw [← hcpid, ← hcqid, hcc]
      rw [← hqk]
      exact List.mem_map_of_mem Prod.fst hq

/-- Journal support: `saveLocalChange` preserves well-formedness. -/
theorem WFJournal_saveLocalChange (s : Sync.Storage) (hwf : WFJournal s)
    (c : Sync.LocalChange) : WFJournal (Sync.saveLocalChange s c) := by
  unfold Sync.saveLocalChange Sync.setItem
  by_cases hany : s.any (fun p => p.1 = Sync.StorageKey.localChange c.clientId) = true
  · rw [if_pos hany]
    intro p hp
    rcases List.mem_map.mp hp with ⟨q, hq, rfl⟩
    by_cases hqk : q.1 = Sync.StorageKey.localChange c.clientId
    · simp [hqk, wfEntry]
    · simpa [hqk] using hwf q hq
  · rw [if_neg hany]
    intro p hp
    rcases List.mem_append.mp hp with h | h
    · exact hwf p h
    · rcases List.mem_singleton.mp h with rfl
      simp [wfEntry]

/-- Journal support: persisting `last_sync_time` preserves
well-formedness. -/
theorem WFJournal_setItem_lastSync (s : Sync.Storage) (hwf : WFJournal s) (n : Nat) :
    WFJournal (Sync.setItem s Sync.StorageKey.lastSyncTime (Sync.StoredValue.num n)) := by
  unfold Sync.setItem
  by_cases hany : s.any (fun p => p.1 = Sync.StorageKey.lastSyncTime) = true
  · rw [if_pos hany]
    intro p hp
    rcases List.mem_map.mp hp with ⟨q, hq, rfl⟩
    by_cases hqk : q.1 = Sync.StorageKey.lastSyncTime
    · simp [hqk, wfEntry]
    · simpa [hqk] using hwf q hq
  · rw [if_neg hany]
    intro p hp
    rcases List.mem_append.mp hp with h | h
    · exact hwf p h
    · rcases List.mem_singleton.mp h with rfl
      simp [wfEntry]

/-- Storage support: `setItem` preserves duplicate-free keys. -/
theorem nodup_keys_setItem (s : Sync.Storage) (k : Sync.StorageKey) (v : Sync.StoredValue)
    (hnd : (s.map Prod.fst).Nodup) :
    ((Sync.setItem s k v).map Prod.fst).Nodup := by
  unfold Sync.setItem
  by_cases hany : s.any (fun p => p.1 = k) = true
  · rw [if_pos hany, List.map_map]
    have heq : s.map (Prod.fst ∘ fun p => if p.1 = k then (k, v) else p) = s.map Prod.fst := by
      apply List.map_congr_left
      intro p _
      by_cases hpk : p.1 = k <;> simp [hpk]
    rw [heq]
    exact hnd
  · rw [if_neg hany, List.map_append]
    rw [List.nodup_append]
    refine ⟨hnd, List.nodup_singleton k, ?_⟩
    intro a ha hb
    rcases List.mem_singleton.mp (by simpa using hb) with rfl
    rcases List.mem_map.mp ha with ⟨p, hp, hpk⟩
    exact hany (List.any_eq_true.mpr ⟨p, hp, by simpa using hpk⟩)

/-- Record support: the state after any sequence of `recordLocalChange`
calls on a fresh service has a well-formed, duplicate-free journal, is not
syncing, is online, and has an untouched entity store. -/
theorem recordAll_invariants (recs : List Sync.RecOp) :
    WFJournal (recordAll recs).storage ∧
    ((recordAll recs).storage.map Prod.fst).Nodup ∧
    (recordAll recs).sync.isSyncing = false ∧
    (recordAll recs).sync.isOnline = true ∧
    (recordAll recs).db = [] := by
  unfold recordAll
  have H : ∀ (l : List Sync.RecOp) (st : Sync.SyncService),
      WFJournal st.storage → (st.storage.map Prod.fst).Nodup →
      st.sync.isSyncing = false → st.sync.isOnline = true → st.db = [] →
      WFJournal (l.foldl (fun st op => (Sync.recordLocalChange st op).1) st).storage ∧
      ((l.foldl (fun st op => (Sync.recordLocalChange st op).1) st).storage.map Prod.fst).Nodup ∧
      (l.foldl (fun st op => (Sync.recordLocalChange st op).1) st).sync.isSyncing = false ∧
      (l.foldl (fun st op => (Sync.recordLocalChange st op).1) st).sync.isOnline = true ∧
      (l.foldl (fun st op => (Sync.recordLocalChange st op).1) st).db = [] := by
    intro l
    induction l with
    | nil => intro st h1 h2 h3 h4 h5; exact ⟨h1, h2, h3, h4, h5⟩
    | cons op ops ih =>
      intro st h1 h2 h3 h4 h5
      rw [List.foldl_cons]
      apply ih
      · exact WFJournal_saveLocalChange st.storage h1 _
      · exact nodup_keys_setItem st.storage _ _ h2
      · exact h3
      · exact h4
      · exact h5
  exact H recs Sync.initialSyncService (fun p hp => absurd hp (List.not_mem_nil p))
    List.nodup_nil rfl rfl rfl

/-- C1: for every sequence of `recordLocalChange` calls followed by a
`startSync` pass against a remote authority whose every batch response
acknowledges all submitted clientIds as processed and reports no
conflicts, the journal is empty afterwards (and the pending count is 0),
and the batches submitted during the pass partition the journal exactly:
their concatenation is the journal read at the start of the pass, and every
journal entry's clientId occurs in exactly one submitted batch — nothing is
uploaded twice and nothing is dropped without acknowledgment. -/
theorem startSync_acked_exact_once (recs : List Sync.RecOp) (remote : Sync.Remote) (now : Nat)
    (hack : ∀ b, (remote.upload b).conflicts = [] ∧
      (remote.upload b).processed = b.map (fun c => c.clientId)) :
    Sync.getLocalChanges
        (Sync.startSync Sync.defaultSyncConfig remote now (recordAll recs) false).1.storage = [] ∧
    (Sync.startSync Sync.defaultSyncConfig remote now
        (recordAll recs) false).1.sync.pendingChanges = 0 ∧
    (Sync.startSync Sync.defaultSyncConfig remote now (recordAll recs) false).2.flatten =
      Sync.getLocalChanges (recordAll recs).storage ∧
    ∀ c ∈ Sync.getLocalChanges (recordAll recs).storage,
      (((Sync.startSync Sync.defaultSyncConfig remote now
          (recordAll recs) false).2.flatten).map (fun x => x.clientId)).count c.clientId = 1 := by
  obtain ⟨hwf, hnd, hsync, hon, hdb⟩ := recordAll_invariants recs
  set st0 := recordAll recs with hst0
  set sorted := Sync.getLocalChanges st0.storage with hsorted
  set batches := Sync.chunkArray sorted Sync.defaultSyncConfig.batchSize with hbatches
  have hflat : batches.flatten = sorted :=
    chunkArray_flatten Sync.defaultSyncConfig.batchSize (by decide) sorted
  have hup : batches.foldl (Sync.uploadBatch Sync.defaultSyncConfig remote) st0 =
      { st0 with
        storage := Sync.removeProcessedChanges st0.storage
          ((batches.map (fun b => (remote.upload b).conflicts.map (fun c => c.clientId) ++
              (remote.upload b).processed)).flatten) } :=
    uploadBatches_storage Sync.defaultSyncConfig remote rfl batches st0
  have hids : (batches.map (fun b => (remote.upload b).conflicts.map (fun c => c.clientId) ++
      (remote.upload b).processed)).flatten = sorted.map (fun c => c.clientId) := by
    have h1 : batches.map (fun b => (remote.upload b).conflicts.map (fun c => c.clientId) ++
        (remote.upload b).processed) = batches.map (fun b => b.map (fun c => c.clientId)) := by
      apply List.map_congr_left
      intro b _
      rw [(hack b).1, (hack b).2]
      simp
    rw [h1, ← List.map_flatten, hflat]
  have hsub : ∀ c ∈ Sync.getLocalChangesRaw st0.storage,
      c.clientId ∈ sorted.map (fun c => c.clientId) := by
    intro c hc
    exact List.mem_map_of_mem _
      ((List.mergeSort_perm (Sync.getLocalChangesRaw st0.storage) _).mem_iff.mpr hc)
  have hempty : Sync.getLocalChangesRaw (Sync.removeProcessedChanges st0.storage
      (sorted.map (fun c => c.clientId))) = [] :=
    removeAll_journal_empty st0.storage hwf _ hsub
  have hfinal : Sync.startSync Sync.defaultSyncConfig remote now st0 false =
      (Sync.updatePendingChangesCount
        { sync := { st0.sync with lastSyncTime := now, isSyncing := false },
          storage := Sync.setItem
            (Sync.removeProcessedChanges st0.storage (sorted.map (fun c => c.clientId)))
            Sync.StorageKey.lastSyncTime (Sync.StoredValue.num now),
          db := remote.pages.foldl Sync.applyServerChanges st0.db },
       batches) := by
    unfold Sync.startSync Sync.uploadLocalChanges Sync.downloadServerChanges Sync.resolveConflicts
    rw [if_neg (by simp [hsync]), if_neg (by simp [hon])]
    dsimp only
    rw [← hsorted, ← hbatches, hup, hids]
  have hrawFinal : Sync.getLocalChangesRaw (Sync.setItem
      (Sync.removeProcessedChanges st0.storage (sorted.map (fun c => c.clientId)))
      Sync.StorageKey.lastSyncTime (Sync.StoredValue.num now)) = [] := by
    rw [raw_setItem_lastSync, hempty]
  have hchangesFinal : Sync.getLocalChanges (Sync.setItem
      (Sync.removeProcessedChanges st0.storage (sorted.map (fun c => c.clientId)))
      Sync.StorageKey.lastSyncTime (Sync.StoredValue.num now)) = [] := by
    unfold Sync.getLocalChanges
    rw [hrawFinal, List.mergeSort_nil]
  refine ⟨?_, ?_, ?_, ?_⟩
  · rw [hfinal]
    unfold Sync.updatePendingChangesCount
    exact hchangesFinal
  · rw [hfinal]
    unfold Sync.updatePendingChangesCount
    dsimp only
    rw [hchangesFinal]
    rfl
  · rw [hfinal]
    exact hflat
  · intro c hc
    rw [hfinal]
    dsimp only
    rw [hflat]
    have hndids : (sorted.map (fun c => c.clientId)).Nodup := by
      have hraw := raw_clientIds_nodup st0.storage hwf hnd
      have hperm : List.Perm (sorted.map (fun c => c.clientId))
          ((Sync.getLocalChangesRaw st0.storage).map (fun c => c.clientId)) :=
        (List.mergeSort_perm (Sync.getLocalChangesRaw st0.storage) _).map _
      exact hperm.nodup_iff.mpr hraw
    exact List.count_eq_one_of_mem hndids (List.mem_map_of_mem _ hc)

/-- C1 witness: two recorded changes synced against the all-acknowledging
remote. -/
theorem startSync_acked_exact_once_witness :
    (∀ b, (echoRemote.upload b).conflicts = [] ∧
      (echoRemote.upload b).processed = b.map (fun c => c.clientId)) ∧
    (let recs : List Sync.RecOp :=
      [{ type := Sync.SyncDataType.messages, action := Sync.SyncAction.create,
         data := "m1", id := none, genId := "id1", timestamp := "t1" },
       { type := Sync.SyncDataType.chats, action := Sync.SyncAction.update,
         data := "c1", id := none, genId := "id2", timestamp := "t2" }]
     Sync.getLocalChanges
        (Sync.startSync Sync.defaultSyncConfig echoRemote 42 (recordAll recs) false).1.storage = [] ∧
     (Sync.startSync Sync.defaultSyncConfig echoRemote 42
        (recordAll recs) false).1.sync.pendingChanges = 0 ∧
     (Sync.startSync Sync.defaultSyncConfig echoRemote 42 (recordAll recs) false).2.flatten =
        Sync.getLocalChanges (recordAll recs).storage ∧
     ∀ c ∈ Sync.getLocalChanges (recordAll recs).storage,
        (((Sync.startSync Sync.defaultSyncConfig echoRemote 42
            (recordAll recs) false).2.flatten).map (fun x => x.clientId)).count c.clientId = 1) :=
  ⟨fun _ => ⟨rfl, rfl⟩,
   startSync_acked_exact_once _ echoRemote 42 (fun _ => ⟨rfl, rfl⟩)⟩

unseal Sync.chunkArray List.mergeSort List.merge in
/-- C4 counterexample: a journal with one change for entity `c1` is synced
against a remote that reports a conflict with server payload `"S"` for it
and delivers no download pages.  After the pass the journal is empty and a
second pass uploads nothing — but the local entity store is empty: it does
*not* hold the server-reported payload, because the server-wins branch of
`resolveConflict` only deletes the journal entry (`removeLocalChange`) and
never writes `serverData` anywhere.  This refutes the claim's "after the
pass local storage holds the server-reported payload for that entity". -/
theorem serverWins_no_server_payload_cex :
    Sync.getLocalChanges c4Start.storage =
      [{ type := Sync.SyncDataType.messages, action := Sync.SyncAction.update,
         data := "L", clientId := "c1", timestamp := "t1" }] ∧
    Sync.getLocalChanges
      (Sync.startSync Sync.defaultSyncConfig c4Remote 99 c4Start false).1.storage = [] ∧
    (Sync.startSync Sync.defaultSyncConfig c4Remote 99 c4Start false).1.db = [] ∧
    ¬ ((Sync.SyncDataType.messages, "S") ∈
        (Sync.startSync Sync.defaultSyncConfig c4Remote 99 c4Start false).1.db) ∧
    (Sync.startSync Sync.defaultSyncConfig c4Remote 100
        (Sync.startSync Sync.defaultSyncConfig c4Remote 99 c4Start false).1 false).2 = [] := by
  refine ⟨?_, ?_, ?_, ?_, ?_⟩ <;> decide

/-- Pass support: a pass started with an empty journal submits no
batches. -/
theorem startSync_trace_empty (cfg : Sync.SyncConfig) (remote : Sync.Remote) (now : Nat)
    (st : Sync.SyncService) (hsync : st.sync.isSyncing = false) (hon : st.sync.isOnline = true)
    (hemptyJ : Sync.getLocalChanges st.storage = []) :
    (Sync.startSync cfg remote now st false).2 = [] := by
  unfold Sync.startSync Sync.uploadLocalChanges
  rw [if_neg (by simp [hsync]), if_neg (by simp [hon])]
  dsimp only
  rw [hemptyJ, Sync.chunkArray]
  simp

/-- C4 (amended): under the default server-wins strategy, every journal
entry whose batch response reports a conflict is removed from the journal
(just as processed entries are), so a pass whose batch responses cover all
submitted entries empties the journal and a later pass re-uploads nothing;
but conflict resolution writes nothing to the entity store — local storage
after the pass is exactly the result of applying the download pages, so it
holds the server-reported conflict payload only if the download step
separately delivers it. -/
theorem serverWins_conflict_spec (st : Sync.SyncService) (remote : Sync.Remote)
    (now now2 : Nat)
    (hwf : WFJournal st.storage)
    (hsync : st.sync.isSyncing = false) (hon : st.sync.isOnline = true)
    (hcov : ∀ b, ∀ c ∈ b, c.clientId ∈
        ((remote.upload b).conflicts.map (fun x => x.clientId) ++ (remote.upload b).processed)) :
    Sync.getLocalChanges
      (Sync.startSync Sync.defaultSyncConfig remote now st false).1.storage = [] ∧
    (Sync.startSync Sync.defaultSyncConfig remote now st false).1.db =
      remote.pages.foldl Sync.applyServerChanges st.db ∧
    (Sync.startSync Sync.defaultSyncConfig remote now2
      (Sync.startSync Sync.defaultSyncConfig remote now st false).1 false).2 = [] := by
  set sorted := Sync.getLocalChanges st.storage with hsorted
  set batches := Sync.chunkArray sorted Sync.defaultSyncConfig.batchSize with hbatches
  have hflat : batches.flatten = sorted :=
    chunkArray_flatten Sync.defaultSyncConfig.batchSize (by decide) sorted
  have hup : batches.foldl (Sync.uploadBatch Sync.defaultSyncConfig remote) st =
      { st with
        storage := Sync.removeProcessedChanges st.storage
          ((batches.map (fun b => (remote.upload b).conflicts.map (fun c => c.clientId) ++
              (remote.upload b).processed)).flatten) } :=
    uploadBatches_storage Sync.defaultSyncConfig remote rfl batches st
  set ids := (batches.map (fun b => (remote.upload b).conflicts.map (fun c => c.clientId) ++
      (remote.upload b).processed)).flatten with hids
  have hsub : ∀ c ∈ Sync.getLocalChangesRaw st.storage, c.clientId ∈ ids := by
    intro c hc
    have hcs : c ∈ sorted :=
      (List.mergeSort_perm (Sync.getLocalChangesRaw st.storage) _).mem_iff.mpr hc
    have hcb : c ∈ batches.flatten := by rw [hflat]; exact hcs
    rcases List.mem_flatten.mp hcb with ⟨b, hb, hcbmem⟩
    refine List.mem_flatten.mpr ⟨(remote.upload b).conflicts.map (fun x => x.clientId) ++
      (remote.upload b).processed, List.mem_map_of_mem _ hb, hcov b c hcbmem⟩
  have hempty : Sync.getLocalChangesRaw (Sync.removeProcessedChanges st.storage ids) = [] :=
    removeAll_journal_empty st.storage hwf ids hsub
  have hfinal : Sync.startSync Sync.defaultSyncConfig remote now st false =
      (Sync.updatePendingChangesCount
        { sync := { st.sync with lastSyncTime := now, isSyncing := false },
          storage := Sync.setItem (Sync.removeProcessedChanges st.storage ids)
            Sync.StorageKey.lastSyncTime (Sync.StoredValue.num now),
          db := remote.pages.foldl Sync.applyServerChanges st.db },
       batches) := by
    unfold Sync.startSync Sync.uploadLocalChanges Sync.downloadServerChanges Sync.resolveConflicts
    rw [if_neg (by simp [hsync]), if_neg (by simp [hon])]
    dsimp only
    rw [← hsorted, ← hbatches, hup]
  have hj1 : Sync.getLocalChanges
      (Sync.startSync Sync.defaultSyncConfig remote now st false).1.storage = [] := by
    rw [hfinal]
    unfold Sync.updatePendingChangesCount
    unfold Sync.getLocalChanges
    rw [raw_setItem_lastSync, hempty, List.mergeSort_nil]
  refine ⟨hj1, ?_, ?_⟩
  · rw [hfinal]
    rfl
  · have hs1 : (Sync.startSync Sync.defaultSyncConfig remote now st false).1.sync.isSyncing =
        false := by
      rw [hfinal]
      rfl
    have hs2 : (Sync.startSync Sync.defaultSyncConfig remote now st false).1.sync.isOnline =
        true := by
      rw [hfinal]
      exact hon
    exact startSync_trace_empty Sync.defaultSyncConfig remote now2 _ hs1 hs2 hj1

/-- C4 witness: the `c1` scenario against the covering remote (conflict on
`c1`, everything acknowledged, no download pages). -/
theorem serverWins_conflict_spec_witness :
    (WFJournal c4Start.storage ∧
     c4Start.sync.isSyncing = false ∧
     c4Start.sync.isOnline = true ∧
     ∀ b, ∀ c ∈ b, c.clientId ∈
        ((c4CoveringRemote.upload b).conflicts.map (fun x => x.clientId) ++
          (c4CoveringRemote.upload b).processed)) ∧
    (Sync.getLocalChanges
      (Sync.startSync Sync.defaultSyncConfig c4CoveringRemote 99 c4Start false).1.storage = [] ∧
     (Sync.startSync Sync.defaultSyncConfig c4CoveringRemote 99 c4Start false).1.db =
      c4CoveringRemote.pages.foldl Sync.applyServerChanges c4Start.db ∧
     (Sync.startSync Sync.defaultSyncConfig c4CoveringRemote 100
       (Sync.startSync Sync.defaultSyncConfig c4CoveringRemote 99 c4Start false).1 false).2 = []) :=
  ⟨⟨by unfold WFJournal; decide, rfl, rfl,
    fun b c hc => List.mem_append.mpr (Or.inr (List.mem_map_of_mem _ hc))⟩,
   serverWins_conflict_spec c4Start c4CoveringRemote 99 100 (by unfold WFJournal; decide) rfl rfl
     (fun b c hc => List.mem_append.mpr (Or.inr (List.mem_map_of_mem _ hc)))⟩
